import Mathlib

/-!
Verification of `thonny/plugins/micropython/os_backend.py` (class
`MicroPythonOsBackend`).  Byte strings are modelled as `List Nat` (raw
bytes).  The connection transport is external to the file under `src/`,
so each read primitive is modelled from the spec's transport contract:
a scan models `soft_read_until`/`soft_read` calls as a response function
from call index to the bytes that call returned, and `read_until` is
modelled as reading up to and including the first occurrence of the
pattern in the incoming stream.
-/

namespace ThonnyOs

/-- Modelled from the spec: `LF` is imported from
`thonny.plugins.micropython.bare_metal_backend`, which is not under
`src/`; the spec calls it "a line-feed byte marker". -/
def LF : List Nat := [10]

/-- Modelled from the spec: `NORMAL_PROMPT` is imported from
`thonny.plugins.micropython.bare_metal_backend`, which is not under
`src/`; the spec calls it "the byte sequence the interpreter emits when
it is idle and ready for the next input" — the REPL prompt `>>> `. -/
def NORMAL_PROMPT : List Nat := [62, 62, 62, 32]

/-- `PASTE_MODE_LINE_PREFIX = b"=== "` (os_backend.py line 43). -/
def PASTE_MODE_LINE_PREFIX : List Nat := [61, 61, 61, 32]

/-- The sentinel `b"#uuu"` appended to the script and awaited back
(os_backend.py lines 127-128). -/
def uuuSentinel : List Nat := [35, 117, 117, 117]

/-- Modelled from the spec: `ends_overlap` is imported from
`thonny.plugins.micropython.backend`, which is not under `src/`.  Per
the spec: true iff there exists `k` in `[1, len right]` such that the
last `k` bytes of `left` equal the first `k` bytes of `right`, and
`left` does not already end with the full `right`. -/
def ends_overlap (left right : List Nat) : Bool :=
  ((List.range right.length).any fun i => decide (right.take (i + 1) <:+ left))
    && !(decide (right <:+ left))

/-- State of one invocation of `_forward_output_until_active_prompt`
(os_backend.py lines 135-179).  `idx` is the index of the next
connection read call, `pending` the withheld buffer, `emitted` the
chunks passed to `output_consumer` in order, `consumed` every byte
returned by a read so far (bookkeeping for the conservation invariant),
and `done` whether the function has returned `NORMAL_PROMPT`. -/
structure ScanState where
  idx : Nat
  pending : List Nat
  emitted : List (List Nat)
  consumed : List Nat
  done : Bool
deriving DecidableEq, Repr

/-- The state at entry of `_forward_output_until_active_prompt`:
`pending = b""`, nothing emitted, nothing read yet. -/
def scanInit : ScanState :=
  { idx := 0, pending := [], emitted := [], consumed := [], done := false }

/-- One iteration of the `while True` loop of
`_forward_output_until_active_prompt` (os_backend.py lines 141-179).
`resp i` is what the `i`-th connection read call (either
`soft_read_until` or the one-byte probe `soft_read(1)`) returned; an
empty list is a read that timed out with no data.  A terminated scan
(`done`) is absorbing.  `_check_for_side_commands` does not touch the
buffer or the consumer and is not modelled. -/
def scanStep (resp : Nat → List Nat) (s : ScanState) : ScanState :=
  if s.done then s
  else
    let newData := resp s.idx
    if newData = [] then
      { s with idx := s.idx + 1 }
    else
      let p := s.pending ++ newData
      let c := s.consumed ++ newData
      if LF <:+ p then
        { idx := s.idx + 1, pending := [], emitted := s.emitted ++ [p],
          consumed := c, done := false }
      else if NORMAL_PROMPT <:+ p then
        { idx := s.idx + 1, pending := [],
          emitted := s.emitted ++ [p.take (p.length - NORMAL_PROMPT.length)],
          consumed := c, done := true }
      else if ends_overlap p NORMAL_PROMPT then
        let followUp := resp (s.idx + 1)
        if followUp = [] then
          { idx := s.idx + 2, pending := [], emitted := s.emitted ++ [p],
            consumed := c, done := false }
        else
          { idx := s.idx + 2, pending := p ++ followUp, emitted := s.emitted,
            consumed := c ++ followUp, done := false }
      else
        { idx := s.idx + 1, pending := [], emitted := s.emitted ++ [p],
          consumed := c, done := false }

/-- Modelled from the spec: the transport's
`read_until(pattern) -> bytes` ("blocks until pattern found"), over an
explicit incoming stream.  Returns the consumed bytes (up to and
including the first occurrence of the marker) and the rest of the
stream, or `none` when the marker never occurs (the call would block
until timeout/EOF and the step would fail). -/
def readUntil (marker : List Nat) : List Nat → Option (List Nat × List Nat)
  | [] => if marker = [] then some ([], []) else none
  | b :: t =>
    if marker.isPrefixOf (b :: t) then some (marker, (b :: t).drop marker.length)
    else (readUntil marker t).map fun q => (b :: q.1, q.2)

/-- The read side of `_execute_with_consumer` (os_backend.py lines
115-133) over the incoming byte stream `input`: read until the
paste-mode echo prefix, until the echoed sentinel, until the newline
acknowledging EOT, then until the normal prompt; the bytes before that
prompt are handed to the output consumer.  `some out` means all six
framing steps completed and `output_consumer(out, "stdout")` was called;
`none` means some expected marker never arrived. -/
def executeWithConsumer (input : List Nat) : Option (List Nat) :=
  (readUntil PASTE_MODE_LINE_PREFIX input).bind fun q1 =>
    (readUntil uuuSentinel q1.2).bind fun q2 =>
      (readUntil LF q2.2).bind fun q3 =>
        (readUntil NORMAL_PROMPT q3.2).map fun q4 =>
          q4.1.take (q4.1.length - NORMAL_PROMPT.length)

/-- The incoming stream produced by a paste-mode interpreter that
echoes the submission verbatim: the paste-mode line prefix, the echoed
`script + b"#uuu"`, the newline acknowledging EOT, then the program
`output` followed by the normal prompt. -/
def pasteEchoInput (script output : List Nat) : List Nat :=
  PASTE_MODE_LINE_PREFIX ++ script ++ uuuSentinel ++ LF ++ output ++ NORMAL_PROMPT

/-- `_forward_unexpected_output` (os_backend.py lines 181-187) given the
bytes `data` returned by `read_all()`: `some chunk` means
`_send_output(chunk, "stdout")` was called, `none` means no output
event was emitted. -/
def forwardUnexpectedOutput (data : List Nat) : Option (List Nat) :=
  if NORMAL_PROMPT <:+ data then
    some (data.take (data.length - NORMAL_PROMPT.length))
  else if data ≠ [] then some data
  else none

/-- Python's `str.replace(pat, repl)` on byte sequences, fuel-indexed
so that the recursion is structural: replace every non-overlapping
occurrence of `pat`, scanning left to right.  Each step consumes at
least one byte of the scanned list, so fuel equal to the list's length
is always enough. -/
def replaceAllFuel (pat repl : List Nat) : Nat → List Nat → List Nat
  | 0, s => s
  | _ + 1, [] => []
  | fuel + 1, b :: t =>
    if pat ≠ [] ∧ pat.isPrefixOf (b :: t) then
      repl ++ replaceAllFuel pat repl fuel ((b :: t).drop pat.length)
    else
      b :: replaceAllFuel pat repl fuel t

/-- Python's `str.replace(pat, repl)` on byte sequences.  The
welcome-text code applies it with ASCII patterns, so the byte-level and
character-level versions agree. -/
def replaceAll (pat repl s : List Nat) : List Nat :=
  replaceAllFuel pat repl s.length s

/-- The boilerplate line removed from the welcome text:
`"Use Ctrl-D to exit, Ctrl-E for paste mode\n"` (os_backend.py line
106), as ASCII bytes. -/
def welcomeBoilerplate : List Nat :=
  [85, 115, 101, 32, 67, 116, 114, 108, 45, 68, 32, 116, 111, 32, 101, 120,
   105, 116, 44, 32, 67, 116, 114, 108, 45, 69, 32, 102, 111, 114, 32, 112,
   97, 115, 116, 101, 32, 109, 111, 100, 101, 10]

/-- `b"".join(output).decode(ENCODING).replace("\r\n", "\n")`
(os_backend.py line 104), at byte level: CRLF normalised to LF. -/
def decodeWelcome (banner : List Nat) : List Nat :=
  replaceAll [13, 10] [10] banner

/-- `self._original_welcome_text.replace("Use Ctrl-D ...", "")`
(os_backend.py lines 105-107). -/
def cleanWelcome (w : List Nat) : List Nat :=
  replaceAll welcomeBoilerplate [] w

/-- The backend state the claims touch: `connectionGen` counts how many
times `self._connection` has been (re)created, and the two welcome-text
fields are `_original_welcome_text` and `_welcome_text`. -/
structure Session where
  connectionGen : Nat
  originalWelcomeText : List Nat
  welcomeText : List Nat
deriving DecidableEq, Repr

/-- The session right after `__init__` created the first connection,
before `_process_until_initial_prompt` ran. -/
def sessionInit : Session :=
  { connectionGen := 1, originalWelcomeText := [], welcomeText := [] }

/-- `_process_until_initial_prompt` (os_backend.py lines 97-107):
`banner` is the output collected by the scan until the initial prompt;
both welcome-text fields are assigned. -/
def processUntilInitialPrompt (s : Session) (banner : List Nat) : Session :=
  let o := decodeWelcome banner
  { s with originalWelcomeText := o, welcomeText := cleanWelcome o }

/-- `_cmd_Run` (os_backend.py lines 192-204): closes the connection,
creates a new one (`connectionGen` increments), forwards the new
child's banner as ordinary output via
`_forward_output_until_active_prompt(self._send_output, "stdout")`, and
sends a `HideTrailingOutput` event carrying
`self._original_welcome_text`.  Returns (new session state, forwarded
banner, text of the `HideTrailingOutput` event).  Neither welcome-text
field is assigned anywhere in the method. -/
def cmd_Run (s : Session) (newBanner : List Nat) : Session × List Nat × List Nat :=
  ({ s with connectionGen := s.connectionGen + 1 }, newBanner, s.originalWelcomeText)

/-- The failure signals a backend command can raise that the claims
distinguish: `notImplementedError` models Python's
`NotImplementedError`, `transportError` a generic connection failure. -/
inductive BackendSignal where
  | notImplementedError : BackendSignal
  | transportError : BackendSignal
deriving DecidableEq, Repr

/-- `_cmd_get_fs_info` (os_backend.py line 212-213): body is
`raise NotImplementedError()`. -/
def cmd_get_fs_info (s : Session) : Except BackendSignal Session :=
  .error .notImplementedError

/-- `_cmd_write_file` (os_backend.py line 215-216). -/
def cmd_write_file (s : Session) : Except BackendSignal Session :=
  .error .notImplementedError

/-- `_cmd_delete` (os_backend.py line 218-219). -/
def cmd_delete (s : Session) : Except BackendSignal Session :=
  .error .notImplementedError

/-- `_cmd_read_file` (os_backend.py line 221-222). -/
def cmd_read_file (s : Session) : Except BackendSignal Session :=
  .error .notImplementedError

/-- `_cmd_mkdir` (os_backend.py line 224-225). -/
def cmd_mkdir (s : Session) : Except BackendSignal Session :=
  .error .notImplementedError

/-- `_upload_file` (os_backend.py line 227-228). -/
def upload_file (s : Session) : Except BackendSignal Session :=
  .error .notImplementedError

/-- `_download_file` (os_backend.py line 230-231). -/
def download_file (s : Session) : Except BackendSignal Session :=
  .error .notImplementedError

/-- `_soft_reboot` (os_backend.py lines 112-113): body is
`raise NotImplementedError()`. -/
def soft_reboot (s : Session) : Except BackendSignal Session :=
  .error .notImplementedError

/-! ## Theorems -/

/-- C4: `ends_overlap B M` holds iff some `k` with `1 ≤ k ≤ len M` makes
the last `k` bytes of `B` equal the first `k` bytes of `M` while `B`
does not already end with the full `M`; in particular overlap and exact
suffix match are mutually exclusive, so the scanner's overlap branch is
only taken when the buffer does not end with the full prompt marker. -/
theorem ends_overlap_spec :
    ∀ B M : List Nat,
      (ends_overlap B M = true ↔
        ((∃ k, 1 ≤ k ∧ k ≤ M.length ∧ M.take k <:+ B) ∧ ¬ M <:+ B)) ∧
      (ends_overlap B M = true → ¬ M <:+ B) := by
  intro B M
  have hmain : ends_overlap B M = true ↔
      ((∃ k, 1 ≤ k ∧ k ≤ M.length ∧ M.take k <:+ B) ∧ ¬ M <:+ B) := by
    simp only [ends_overlap, Bool.and_eq_true, List.any_eq_true, List.mem_range,
      decide_eq_true_eq, Bool.not_eq_true', decide_eq_false_iff_not]
    constructor
    · rintro ⟨⟨i, hi, hs⟩, hn⟩
      exact ⟨⟨i + 1, by omega, by omega, hs⟩, hn⟩
    · rintro ⟨⟨k, hk1, hk2, hs⟩, hn⟩
      refine ⟨⟨k - 1, by omega, ?_⟩, hn⟩
      have hk : k - 1 + 1 = k := by omega
      rw [hk]
      exact hs
  exact ⟨hmain, fun h => (hmain.mp h).2⟩

/-- Witness for C4: `b">"` overlaps the prompt marker, and the theorem
yields that it does not end with the full marker. -/
theorem ends_overlap_spec_witness :
    ends_overlap [62] NORMAL_PROMPT = true ∧ ¬ NORMAL_PROMPT <:+ [62] :=
  ⟨by decide, (ends_overlap_spec [62] NORMAL_PROMPT).2 (by decide)⟩

/-- C7: every unsupported operation of the backend (filesystem info,
write, delete, read, mkdir, upload, download, soft reboot) raises the
specific `NotImplementedError` signal: never a silent no-op and never a
generic transport error. -/
theorem unsupported_ops_raise_not_implemented (s : Session) :
    cmd_get_fs_info s = .error .notImplementedError ∧
    cmd_write_file s = .error .notImplementedError ∧
    cmd_delete s = .error .notImplementedError ∧
    cmd_read_file s = .error .notImplementedError ∧
    cmd_mkdir s = .error .notImplementedError ∧
    upload_file s = .error .notImplementedError ∧
    download_file s = .error .notImplementedError ∧
    soft_reboot s = .error .notImplementedError ∧
    (∀ t : Session, cmd_read_file s ≠ .ok t) ∧
    cmd_read_file s ≠ .error .transportError := by
  refine ⟨rfl, rfl, rfl, rfl, rfl, rfl, rfl, rfl, ?_, ?_⟩
  · intro t h
    exact Except.noConfusion h
  · intro h
    exact BackendSignal.noConfusion (Except.error.inj h)

/-- Witness for C7: on a concrete session, reading a file raises the
not-implemented signal. -/
theorem unsupported_ops_raise_not_implemented_witness :
    cmd_read_file sessionInit = .error .notImplementedError :=
  (unsupported_ops_raise_not_implemented sessionInit).2.2.2.1

/-- C10: between commands, `_forward_unexpected_output` forwards the
available bytes with exactly one trailing prompt marker stripped when
they end with the marker, forwards them unchanged when they are
non-empty without the marker suffix, and emits no output event when no
bytes are available. -/
theorem forwardUnexpectedOutput_spec (data : List Nat) :
    (NORMAL_PROMPT <:+ data →
      ∃ out, data = out ++ NORMAL_PROMPT ∧ forwardUnexpectedOutput data = some out) ∧
    (¬ NORMAL_PROMPT <:+ data → data ≠ [] → forwardUnexpectedOutput data = some data) ∧
    (data = [] → forwardUnexpectedOutput data = none) := by
  refine ⟨?_, ?_, ?_⟩
  · intro h
    refine ⟨data.take (data.length - NORMAL_PROMPT.length), ?_, ?_⟩
    · exact (List.suffix_iff_eq_append.mp h).symm
    · simp [forwardUnexpectedOutput, h]
  · intro h hne
    simp [forwardUnexpectedOutput, h, hne]
  · intro h
    subst h
    decide

/-- Witness for C10: a concrete buffer ending with the prompt marker is
forwarded with exactly the marker stripped. -/
theorem forwardUnexpectedOutput_spec_witness :
    ∃ out, (97 :: NORMAL_PROMPT : List Nat) = out ++ NORMAL_PROMPT ∧
      forwardUnexpectedOutput (97 :: NORMAL_PROMPT) = some out :=
  (forwardUnexpectedOutput_spec (97 :: NORMAL_PROMPT)).1 (by decide)

/-- C8 counterexample: a run command recreates the connection, yet the
stored raw welcome text still holds the decoding of the startup banner
`b"A\n"` and not the decoding of the new child's banner `b"B\n"` — the
claimed replacement on reconnection does not happen. -/
theorem welcome_not_replaced_on_run :
    (cmd_Run (processUntilInitialPrompt sessionInit [65, 10]) [66, 10]).1.connectionGen
        = (processUntilInitialPrompt sessionInit [65, 10]).connectionGen + 1 ∧
    (cmd_Run (processUntilInitialPrompt sessionInit [65, 10]) [66, 10]).1.originalWelcomeText
        = [65, 10] ∧
    decodeWelcome [66, 10] = [66, 10] ∧
    ([65, 10] : List Nat) ≠ [66, 10] := by
  decide

/-- C8 amended: both welcome-text variants are captured by
`_process_until_initial_prompt`, the cleaned one equal to the raw one
with the boilerplate line removed; a run command does not recapture
them — it leaves both fields unchanged and reuses the stored raw
variant in its `HideTrailingOutput` event. -/
theorem welcome_capture_and_run :
    (∀ s banner,
      (processUntilInitialPrompt s banner).originalWelcomeText = decodeWelcome banner ∧
      (processUntilInitialPrompt s banner).welcomeText
          = cleanWelcome (decodeWelcome banner)) ∧
    (∀ s newBanner,
      (cmd_Run s newBanner).1.originalWelcomeText = s.originalWelcomeText ∧
      (cmd_Run s newBanner).1.welcomeText = s.welcomeText ∧
      (cmd_Run s newBanner).2.2 = s.originalWelcomeText) :=
  ⟨fun _ _ => ⟨rfl, rfl⟩, fun _ _ => ⟨rfl, rfl, rfl⟩⟩

/-- A successful `readUntil` consumes exactly up to and including the
first occurrence of the marker: the consumed chunk is `pre ++ marker`
where `pre` contains no occurrence of the marker, and the stream splits
as `pre ++ marker ++ rest`. -/
theorem readUntil_some_spec (m : List Nat) (hm : m ≠ []) :
    ∀ s c r, readUntil m s = some (c, r) →
      ∃ pre, c = pre ++ m ∧ s = pre ++ m ++ r ∧ ¬ m <:+: pre := by
  intro s
  induction s with
  | nil =>
    intro c r h
    rw [readUntil, if_neg hm] at h
    exact Option.noConfusion h
  | cons b t ih =>
    intro c r h
    rw [readUntil] at h
    by_cases hp : m.isPrefixOf (b :: t)
    · rw [if_pos hp] at h
      injection h with h
      have hc : m = c := congrArg Prod.fst h
      have hr : (b :: t).drop m.length = r := congrArg Prod.snd h
      refine ⟨[], by simp [hc], ?_, ?_⟩
      · have hpre : m <+: b :: t := List.isPrefixOf_iff_prefix.mp hp
        have := List.prefix_iff_eq_append.mp hpre
        simp only [List.nil_append]
        rw [← hr, this]
      · intro hcon
        exact hm (List.infix_nil.mp hcon)
    · rw [if_neg hp] at h
      obtain ⟨⟨c', r'⟩, hq, heq⟩ := Option.map_eq_some'.mp h
      have hc : b :: c' = c := congrArg Prod.fst heq
      have hr : r' = r := congrArg Prod.snd heq
      obtain ⟨pre', hpc, hpt, hpn⟩ := ih c' r' hq
      refine ⟨b :: pre', ?_, ?_, ?_⟩
      · rw [← hc, hpc]
        rfl
      · rw [← hr]
        simp only [List.cons_append]
        rw [← hpt]
      · intro hcon
        rcases List.infix_cons_iff.mp hcon with hpref | hinf
        · apply hp
          apply List.isPrefixOf_iff_prefix.mpr
          have hbp : b :: pre' <+: b :: t := by
            refine ⟨m ++ r', ?_⟩
            rw [hpt]
            simp [List.append_assoc]
          exact hpref.trans hbp
        · exact hpn hinf

/-- `readUntil` finds a marker placed at the head of the stream. -/
theorem readUntil_self (m rest : List Nat) (hm : m ≠ []) :
    readUntil m (m ++ rest) = some (m, rest) := by
  cases m with
  | nil => exact absurd rfl hm
  | cons a am =>
    rw [List.cons_append, readUntil,
      if_pos (List.isPrefixOf_iff_prefix.mpr ⟨rest, by simp⟩)]
    rw [← List.cons_append, List.drop_left]

/-- C3: whenever `_execute_with_consumer` completes all six framing
steps, the bytes handed to the output consumer are exactly the bytes
between the end-of-transmission acknowledgement newline and the next
normal prompt marker: the incoming stream splits into a chunk ending
with the paste-mode echo prefix, a chunk ending with the echoed
sentinel, a chunk ending with the acknowledgement newline, then the
emitted output immediately followed by the prompt marker; the marker is
excluded and no occurrence of it is contained in the output. -/
theorem executeWithConsumer_frames (input out : List Nat)
    (h : executeWithConsumer input = some out) :
    ∃ c1 c2 c3 rest,
      input = c1 ++ c2 ++ c3 ++ out ++ NORMAL_PROMPT ++ rest ∧
      PASTE_MODE_LINE_PREFIX <:+ c1 ∧ uuuSentinel <:+ c2 ∧ LF <:+ c3 ∧
      ¬ NORMAL_PROMPT <:+: out := by
  unfold executeWithConsumer at h
  simp only [Option.bind_eq_some, Option.map_eq_some'] at h
  obtain ⟨⟨c1, r1⟩, h1, ⟨c2, r2⟩, h2, ⟨c3, r3⟩, h3, ⟨c4, r4⟩, h4, hout⟩ := h
  obtain ⟨p1, hc1, hs1, -⟩ :=
    readUntil_some_spec PASTE_MODE_LINE_PREFIX (by decide) input c1 r1 h1
  obtain ⟨p2, hc2, hs2, -⟩ :=
    readUntil_some_spec uuuSentinel (by decide) r1 c2 r2 h2
  obtain ⟨p3, hc3, hs3, -⟩ :=
    readUntil_some_spec LF (by decide) r2 c3 r3 h3
  obtain ⟨p4, hc4, hs4, hn4⟩ :=
    readUntil_some_spec NORMAL_PROMPT (by decide) r3 c4 r4 h4
  have hout4 : out = p4 := by
    rw [← hout, hc4]
    have hl : (p4 ++ NORMAL_PROMPT).length - NORMAL_PROMPT.length
        = p4.length := by simp
    rw [hl, List.take_left]
  refine ⟨c1, c2, c3, r4, ?_, ?_, ?_, ?_, ?_⟩
  · rw [hs1, hs2, hs3, hs4, ← hc1, ← hc2, ← hc3, hout4]
    simp [List.append_assoc]
  · rw [hc1]; exact List.suffix_append p1 PASTE_MODE_LINE_PREFIX
  · rw [hc2]; exact List.suffix_append p2 uuuSentinel
  · rw [hc3]; exact List.suffix_append p3 LF
  · rw [hout4]; exact hn4

/-- Witness for C3: the stream echoing an empty paste submission whose
program prints `2\n` yields exactly the output `2\n`, framed as the
theorem states. -/
theorem executeWithConsumer_frames_witness :
    executeWithConsumer
        [61, 61, 61, 32, 35, 117, 117, 117, 10, 50, 10, 62, 62, 62, 32]
      = some [50, 10] ∧
    ∃ c1 c2 c3 rest,
      [61, 61, 61, 32, 35, 117, 117, 117, 10, 50, 10, 62, 62, 62, 32]
        = c1 ++ c2 ++ c3 ++ [50, 10] ++ NORMAL_PROMPT ++ rest ∧
      PASTE_MODE_LINE_PREFIX <:+ c1 ∧ uuuSentinel <:+ c2 ∧ LF <:+ c3 ∧
      ¬ NORMAL_PROMPT <:+: [50, 10] :=
  ⟨by decide, executeWithConsumer_frames _ _ (by decide)⟩

/-- C6 counterexample: for the script consisting of the sentinel bytes
`b"#uuu"` themselves, the read-until-sentinel step stops at the earlier
occurrence inside the script's echoed content, not at the sentinel
appended after the script body. -/
theorem readUntil_sentinel_stops_early :
    readUntil uuuSentinel (uuuSentinel ++ uuuSentinel)
        = some (uuuSentinel, uuuSentinel) ∧
    readUntil uuuSentinel (uuuSentinel ++ uuuSentinel)
        ≠ some (uuuSentinel ++ uuuSentinel, []) := by
  decide

/-- C6 amended: for every script body that does not itself create an
earlier occurrence of the sentinel (no occurrence of `b"#uuu"` inside
the echoed script followed by the first three sentinel bytes — in
particular any script not containing the sentinel), the
read-until-sentinel step stops exactly at the sentinel appended after
the script body; and submitting the empty script completes all six
framing steps and yields empty output. -/
theorem readUntil_sentinel_boundary :
    (∀ script rest : List Nat,
      ¬ uuuSentinel <:+: (script ++ uuuSentinel.take 3) →
      readUntil uuuSentinel (script ++ uuuSentinel ++ rest)
          = some (script ++ uuuSentinel, rest)) ∧
    executeWithConsumer (pasteEchoInput [] []) = some [] := by
  constructor
  · intro script
    induction script with
    | nil =>
      intro rest _
      simpa using readUntil_self uuuSentinel rest (by decide)
    | cons b sc ih =>
      intro rest h
      have hnp : ¬ uuuSentinel.isPrefixOf (b :: (sc ++ uuuSentinel ++ rest)) := by
        intro hp
        apply h
        have hpre : uuuSentinel <+: b :: (sc ++ uuuSentinel ++ rest) :=
          List.isPrefixOf_iff_prefix.mp hp
        have htake : uuuSentinel.take 3 <+: uuuSentinel := List.take_prefix 3 _
        have hmid : b :: (sc ++ uuuSentinel.take 3)
            <+: b :: (sc ++ uuuSentinel ++ rest) := by
          refine ⟨uuuSentinel.drop 3 ++ rest, ?_⟩
          simp only [List.cons_append, List.cons.injEq, true_and]
          rw [List.append_assoc, List.append_assoc, ← List.append_assoc (uuuSentinel.take 3),
            List.take_append_drop]
        have hlen : uuuSentinel.length ≤ (b :: (sc ++ uuuSentinel.take 3)).length := by
          simp [uuuSentinel]
        rcases List.prefix_or_prefix_of_prefix hpre hmid with hmp | hpm
        · exact hmp.isInfix
        · have heq : (b :: sc) ++ uuuSentinel.take 3 = uuuSentinel := by
            simpa using hpm.eq_of_length_le hlen
          rw [heq]
      have hstream : (b :: sc) ++ uuuSentinel ++ rest
          = b :: (sc ++ uuuSentinel ++ rest) := by simp
      rw [hstream, readUntil, if_neg hnp]
      have hih : ¬ uuuSentinel <:+: (sc ++ uuuSentinel.take 3) := by
        intro hcon
        exact h (List.infix_cons_iff.mpr (Or.inr hcon))
      rw [ih rest hih]
      simp
  · decide

/-- Witness for C6 amended: the one-byte script `b"p"` creates no early
sentinel occurrence, and the sentinel read stops exactly after the
appended sentinel. -/
theorem readUntil_sentinel_boundary_witness :
    ¬ uuuSentinel <:+: ([112] ++ uuuSentinel.take 3) ∧
    readUntil uuuSentinel ([112] ++ uuuSentinel ++ [])
        = some ([112] ++ uuuSentinel, []) :=
  ⟨by decide, readUntil_sentinel_boundary.1 [112] [] (by decide)⟩

/-- The conservation invariant of the scan loop: the chunks emitted so
far followed by the pending buffer (or, once the prompt was reached, by
the withheld prompt marker) are exactly the bytes read so far. -/
def scanInv (s : ScanState) : Prop :=
  s.emitted.flatten ++ (if s.done then NORMAL_PROMPT else s.pending) = s.consumed

/-- A loop iteration whose read returns nothing only advances the read
counter: `continue` is executed before the buffer is touched. -/
theorem scanStep_nil_read (resp : Nat → List Nat) (s : ScanState)
    (h1 : s.done = false) (h2 : resp s.idx = []) :
    scanStep resp s = { s with idx := s.idx + 1 } := by
  simp [scanStep, h1, h2]

/-- Once every read at or after the current position returns nothing, a
not-yet-terminated scan only counts reads forever. -/
theorem iterate_nil_reads (resp : Nat → List Nat) (s : ScanState)
    (h1 : s.done = false) (h2 : ∀ i, s.idx ≤ i → resp i = []) :
    ∀ m, (scanStep resp)^[m] s = { s with idx := s.idx + m } := by
  intro m
  induction m with
  | zero => rfl
  | succ k ih =>
    rw [Function.iterate_succ_apply', ih]
    exact scanStep_nil_read resp
      { idx := s.idx + k, pending := s.pending, emitted := s.emitted,
        consumed := s.consumed, done := s.done }
      h1 (h2 (s.idx + k) (Nat.le_add_right _ k))

/-- A loop iteration whose read returns data resolves to one of the
four classification branches of the source's `if`/`elif` chain. -/
theorem scanStep_cons_read (resp : Nat → List Nat) (s : ScanState)
    (hd : s.done = false) (hn : resp s.idx ≠ []) :
    scanStep resp s =
      if LF <:+ s.pending ++ resp s.idx then
        { idx := s.idx + 1, pending := [],
          emitted := s.emitted ++ [s.pending ++ resp s.idx],
          consumed := s.consumed ++ resp s.idx, done := false }
      else if NORMAL_PROMPT <:+ s.pending ++ resp s.idx then
        { idx := s.idx + 1, pending := [],
          emitted := s.emitted ++ [(s.pending ++ resp s.idx).take
            ((s.pending ++ resp s.idx).length - NORMAL_PROMPT.length)],
          consumed := s.consumed ++ resp s.idx, done := true }
      else if ends_overlap (s.pending ++ resp s.idx) NORMAL_PROMPT then
        (if resp (s.idx + 1) = [] then
          { idx := s.idx + 2, pending := [],
            emitted := s.emitted ++ [s.pending ++ resp s.idx],
            consumed := s.consumed ++ resp s.idx, done := false }
        else
          { idx := s.idx + 2,
            pending := s.pending ++ resp s.idx ++ resp (s.idx + 1),
            emitted := s.emitted,
            consumed := s.consumed ++ resp s.idx ++ resp (s.idx + 1),
            done := false })
      else
        { idx := s.idx + 1, pending := [],
          emitted := s.emitted ++ [s.pending ++ resp s.idx],
          consumed := s.consumed ++ resp s.idx, done := false } := by
  simp [scanStep, hd, hn]

/-- One iteration preserves the conservation invariant. -/
theorem scanStep_inv (resp : Nat → List Nat) (s : ScanState) (h : scanInv s) :
    scanInv (scanStep resp s) := by
  by_cases hd : s.done = true
  · unfold scanStep
    rw [if_pos hd]
    exact h
  · have hd' : s.done = false := by
      cases hsd : s.done
      · rfl
      · exact absurd hsd hd
    have hE : s.emitted.flatten ++ s.pending = s.consumed := by
      unfold scanInv at h
      rw [hd'] at h
      simpa using h
    by_cases hn : resp s.idx = []
    · rw [scanStep_nil_read resp s hd' hn]
      exact h
    · rw [scanStep_cons_read resp s hd' hn]
      split_ifs with h1 h2 h3 h4
      · simp only [scanInv, List.flatten_append, List.flatten_cons,
          List.flatten_nil, List.append_nil, Bool.false_eq_true, if_false,
          ← List.append_assoc, hE]
      · have hp := List.suffix_iff_eq_append.mp h2
        simp only [scanInv, List.flatten_append, List.flatten_cons,
          List.flatten_nil, List.append_nil, eq_self_iff_true, if_true]
        rw [List.append_assoc, hp, ← List.append_assoc, hE]
      · simp only [scanInv, List.flatten_append, List.flatten_cons,
          List.flatten_nil, List.append_nil, Bool.false_eq_true, if_false,
          ← List.append_assoc, hE]
      · simp only [scanInv, Bool.false_eq_true, if_false,
          ← List.append_assoc, hE]
      · simp only [scanInv, List.flatten_append, List.flatten_cons,
          List.flatten_nil, List.append_nil, Bool.false_eq_true, if_false,
          ← List.append_assoc, hE]

/-- C9: at every iteration of the scan loop, the concatenation of the
chunks emitted so far followed by the pending buffer equals the
concatenation of all bytes read from the connection so far, in order —
no byte lost or duplicated; on normal termination the full prompt
marker is the only byte sequence withheld from the emitted stream. -/
theorem scan_conservation (resp : Nat → List Nat) (n : Nat) :
    ((scanStep resp)^[n] scanInit).emitted.flatten
        ++ (if ((scanStep resp)^[n] scanInit).done then NORMAL_PROMPT
            else ((scanStep resp)^[n] scanInit).pending)
      = ((scanStep resp)^[n] scanInit).consumed := by
  have hinv : scanInv ((scanStep resp)^[n] scanInit) := by
    induction n with
    | zero => simp [scanInv, scanInit]
    | succ k ih =>
      rw [Function.iterate_succ_apply']
      exact scanStep_inv resp _ ih
  exact hinv

/-- C5: when the freshly extended buffer overlaps the prompt marker and
the one-byte probe read returns nothing, the scanner emits the entire
pending buffer as one ordinary chunk, clears the buffer and continues
scanning — no `PromptReached`, no byte dropped. -/
theorem scan_overlap_probe_timeout (resp : Nat → List Nat) (s : ScanState)
    (h0 : s.done = false)
    (h1 : resp s.idx ≠ [])
    (h2 : ¬ LF <:+ s.pending ++ resp s.idx)
    (h3 : ¬ NORMAL_PROMPT <:+ s.pending ++ resp s.idx)
    (h4 : ends_overlap (s.pending ++ resp s.idx) NORMAL_PROMPT = true)
    (h5 : resp (s.idx + 1) = []) :
    scanStep resp s =
      { idx := s.idx + 2, pending := [],
        emitted := s.emitted ++ [s.pending ++ resp s.idx],
        consumed := s.consumed ++ resp s.idx, done := false } := by
  simp [scanStep, h0, h1, h2, h3, h4, h5]

/-- Witness for C5: from the initial state, a read of `b">"` followed
by an empty probe emits `b">"` as output and continues. -/
theorem scan_overlap_probe_timeout_witness :
    ((fun i => if i = 0 then [62] else ([] : List Nat)) 0 ≠ []) ∧
    scanStep (fun i => if i = 0 then [62] else []) scanInit =
      { idx := 2, pending := [], emitted := [[62]], consumed := [62],
        done := false } := by
  refine ⟨by decide, ?_⟩
  rw [scan_overlap_probe_timeout (fun i => if i = 0 then [62] else []) scanInit
    rfl (by decide) (by decide) (by decide) (by decide) (by decide)]
  decide

/-- The state the scan is stuck in after the fragmented delivery below:
the pending buffer holds the full prompt marker, four reads have
happened, nothing was emitted, and the scan has not terminated. -/
def fragStuck : ScanState :=
  { idx := 4, pending := [62, 62, 62, 32], emitted := [],
    consumed := [62, 62, 62, 32], done := false }

/-- The reads delivering the prompt marker `b">>> "` byte by byte, with
every byte present within the probe timeout: `soft_read_until` returns
`b">"`, the probe returns `b">"`, `soft_read_until` returns `b">"`, the
probe returns `b" "`, and afterwards the stream is idle. -/
def fragResp (i : Nat) : List Nat :=
  if i = 0 then [62] else if i = 1 then [62]
  else if i = 2 then [62] else if i = 3 then [32] else []

theorem fragResp_ge (i : Nat) : fragResp (i + 4) = [] := by
  unfold fragResp
  rw [if_neg (by omega), if_neg (by omega), if_neg (by omega), if_neg (by omega)]

/-- C1 failing run: after the fragmented byte-by-byte delivery of the
prompt marker, the pending buffer ends with (indeed equals) the full
normal prompt marker, yet the scan never terminates: the classification
is only re-evaluated after the next non-empty `soft_read_until`, so
with no further bytes arriving the loop re-reads and `continue`s
forever and `PromptReached` is never signalled. -/
theorem scan_misses_fragmented_prompt :
    ((scanStep fragResp)^[2] scanInit).pending = NORMAL_PROMPT ∧
    ∀ n, ((scanStep fragResp)^[n] scanInit).done = false := by
  have h2 : (scanStep fragResp)^[2] scanInit = fragStuck := by decide
  refine ⟨by rw [h2]; rfl, ?_⟩
  intro n
  match n with
  | 0 => rfl
  | 1 => decide
  | m + 2 =>
    have hresp : ∀ i, fragStuck.idx ≤ i → fragResp i = [] := by
      intro i hi
      have hi4 : 4 ≤ i := hi
      have hge : i = (i - 4) + 4 := by omega
      rw [hge]
      exact fragResp_ge _
    rw [Function.iterate_add_apply, h2, iterate_nil_reads fragResp _ rfl hresp m]
    rfl

/-- C2 failing run: on a closed or erroring connection every read
returns empty, and the scan loop visibly spin-loops: after any number
of iterations it has emitted nothing, accumulated nothing, raised
nothing, and is still not terminated — a silent infinite retry instead
of a surfaced fatal failure. -/
theorem scan_spins_forever_on_empty_reads :
    ∀ n, (scanStep (fun _ => []))^[n] scanInit =
      { idx := n, pending := [], emitted := [], consumed := [],
        done := false } := by
  intro n
  have h := iterate_nil_reads (fun _ => []) scanInit rfl (fun _ _ => rfl) n
  simpa [scanInit] using h

end ThonnyOs
